import Mathlib

set_option maxHeartbeats 1000000

/-!
Shallow embedding of the fintech-news-bot's core pipeline:
`src/src/dedupe.py`, `src/src/utils.py`, `src/src/improved_scoring.py` and
the scoring / pattern-count part of `src/src/app.py`.

Modelling conventions:
* Python strings are modelled as `String` / `List Char`; `str.lower()` is
  modelled on the ASCII range (all lexicon constants and evaluated inputs
  are ASCII).
* Python floats are modelled as `ℚ`; the float division `inter / union`
  of `_jaccard` is modelled as `mkRat inter union` (the exact rational of
  the quotient).
* Python `dict` items are modelled as a record `Item` whose fields carry
  the keys the core reads/writes; absent string keys and `None` coincide
  with `""` for every operation the core performs on them, so both are
  modelled as `""`.  An `extra` field stands for all remaining keys.
* `datetime.fromisoformat` is modelled for the `YYYY-MM-DD(T| )HH:MM[:SS]`
  format with a `+HH:MM`/`-HH:MM` offset (after the source's
  `replace("Z", "+00:00")`); naive timestamps parse to `none`, matching
  the `TypeError` that `now_utc - dt` raises for them, which the source
  catches and turns into freshness 0.
* `re.search` over the fixed pattern tables is modelled by a small
  backtracking matcher (`matchFuel`) whose atoms cover exactly the
  constructs those patterns use (literals, `(?:..|..)?` alternation,
  character classes with `?`/`*`/`+`/`{3,}`, and `\b`); fuel is supplied
  large enough to be total, existence of a match is what `re.search`'s
  truthiness tests.
-/

/-! ### Character and string helpers -/

/-- ASCII case folding, the fragment of `str.lower()` that the lexicons and
evaluated inputs exercise. -/
def lowerChar (c : Char) : Char :=
  let n := c.toNat
  if 65 ≤ n ∧ n ≤ 90 then Char.ofNat (n + 32) else c

def lowerCs (s : List Char) : List Char := s.map lowerChar

def lowerStr (s : String) : String := ⟨lowerCs s.data⟩

/-- Python `\s` / `str.strip()` whitespace on the ASCII range. -/
def isPySpace (c : Char) : Bool :=
  c = ' ' || c = '\t' || c = '\n' || c = '\r' || c = '\x0b' || c = '\x0c'

def isDigitCh (c : Char) : Bool := 48 ≤ c.toNat && c.toNat ≤ 57

def isAsciiAlpha (c : Char) : Bool :=
  (97 ≤ c.toNat && c.toNat ≤ 122) || (65 ≤ c.toNat && c.toNat ≤ 90)

/-- Python regex `\w` on the ASCII range. -/
def isWordCh (c : Char) : Bool := isAsciiAlpha c || isDigitCh c || c.toNat = 95

/-- `str.strip()`. -/
def stripCs (s : List Char) : List Char :=
  ((s.dropWhile isPySpace).reverse.dropWhile isPySpace).reverse

def stripStr (s : String) : String := ⟨stripCs s.data⟩

/-- Python substring containment (`needle in hay`). -/
def containsSub (hay pat : List Char) : Bool :=
  pat.isPrefixOf hay ||
    match hay with
    | [] => false
    | _ :: t => containsSub t pat

/-- `str.find(sep)` + split at the first occurrence, `none` when absent
(models `sep in s` + `s.split(sep, 1)`). -/
def splitAtFirst (sep : Char) : List Char → Option (List Char × List Char)
  | [] => none
  | c :: t =>
      if c = sep then some ([], t)
      else (splitAtFirst sep t).map fun p => (c :: p.1, p.2)

/-- `str.split(sep)` (keeping empty chunks, as Python does). -/
def splitSepAux (sep : Char) : List Char → List Char → List (List Char)
  | cur, [] => [cur.reverse]
  | cur, c :: t =>
      if c = sep then cur.reverse :: splitSepAux sep [] t
      else splitSepAux sep (c :: cur) t

def splitSep (sep : Char) (s : List Char) : List (List Char) := splitSepAux sep [] s

/-- `str.split()` — split on whitespace runs, dropping empty words. -/
def splitWsAux : List Char → List Char → List (List Char)
  | cur, [] => if cur = [] then [] else [cur.reverse]
  | cur, c :: t =>
      if isPySpace c then
        if cur = [] then splitWsAux [] t else cur.reverse :: splitWsAux [] t
      else splitWsAux (c :: cur) t

def splitWs (s : List Char) : List (List Char) := splitWsAux [] s

/-! ### Regex matcher

A backtracking matcher for the fixed regex tables of `app.py` and
`improved_scoring.py`.  `matchFuel` answers "does some decomposition of a
prefix of `s` match the atom list", which is exactly the information
`re.search` truthiness provides once tried from every start position
(`searchFrom`).  Every step consumes a character or an atom, so fuel
`s.length + atoms.length + 1` never runs out. -/

inductive RAtom where
  | lit : List Char → RAtom
  | alts : List (List Char) → Bool → RAtom
  | many : (Char → Bool) → Nat → RAtom
  | wb : RAtom

def headIsWord : List Char → Bool
  | [] => false
  | c :: _ => isWordCh c

def isWordOpt : Option Char → Bool
  | none => false
  | some c => isWordCh c

def lastOr (l : List Char) (prev : Option Char) : Option Char :=
  match l.getLast? with
  | some c => some c
  | none => prev

def matchFuel : Nat → Option Char → List RAtom → List Char → Bool
  | 0, _, _, _ => false
  | _ + 1, _, [], _ => true
  | fuel + 1, prev, .wb :: rest, s =>
      (isWordOpt prev != headIsWord s) && matchFuel fuel prev rest s
  | fuel + 1, prev, .lit l :: rest, s =>
      l.isPrefixOf s && matchFuel fuel (lastOr l prev) rest (s.drop l.length)
  | fuel + 1, prev, .alts ls o :: rest, s =>
      (o && matchFuel fuel prev rest s) ||
      ls.any fun l => l.isPrefixOf s && matchFuel fuel (lastOr l prev) rest (s.drop l.length)
  | fuel + 1, prev, .many f n :: rest, s =>
      if n = 0 then
        matchFuel fuel prev rest s ||
        (match s with
         | [] => false
         | c :: t => f c && matchFuel fuel (some c) (.many f 0 :: rest) t)
      else
        match s with
        | [] => false
        | c :: t => f c && matchFuel fuel (some c) (.many f (n - 1) :: rest) t

def searchFrom (re : List RAtom) : Option Char → List Char → Bool
  | prev, s =>
      matchFuel (s.length + re.length + 1) prev re s ||
      match s with
      | [] => false
      | c :: t => searchFrom re (some c) t

/-- `re.search(pattern, s) is not None`. -/
def reSearch (re : List RAtom) (s : List Char) : Bool := searchFrom re none s

/-! Pattern-building shorthand: `W` = `\b`, `L` = a literal run,
`optG` = `(?:a|b|..)?`, `reqG` = `(?:a|b|..)` / `[xy]`,
`sp1`/`sp0` = `\s+`/`\s*`, `d1`/`d0`/`d3` = `\d+`/`\d*`/`\d{3,}`. -/

def W : RAtom := .wb

def L (s : String) : RAtom := .lit s.data

def optG (ls : List String) : RAtom := .alts (ls.map String.data) true

def reqG (ls : List String) : RAtom := .alts (ls.map String.data) false

def sp1 : RAtom := .many isPySpace 1

def sp0 : RAtom := .many isPySpace 0

def d1 : RAtom := .many isDigitCh 1

def d0 : RAtom := .many isDigitCh 0

def d3 : RAtom := .many isDigitCh 3

/-! ### Pattern tables from `app.py` -/

/-- `TIER1_LAUNCH_PATTERNS` (app.py), one entry per source regex, in order. -/
def TIER1_LAUNCH_PATTERNS : List (List RAtom) :=
  [ [W, L "launch", optG ["es", "ed", "ing"], W],
    [W, L "unveil", optG ["s", "ed", "ing"], W],
    [W, L "introduc", optG ["es", "ed", "ing"], W],
    [W, L "roll", optG ["s"], sp1, L "out", W],
    [W, L "go", optG ["es"], sp1, L "live", W],
    [W, L "partner", optG ["s"], sp1, L "with", W],
    [W, L "team", optG ["s"], sp1, L "up", sp1, L "with", W],
    [W, L "join", optG ["s"], sp1, L "forces", W],
    [W, L "collaborat", optG ["es", "ed", "ing"], sp1, L "with", W],
    [W, L "announc", reqG ["es", "ed", "ing"], W],
    [W, L "to", sp1, L "launch", W],
    [W, L "plan", optG ["s"], sp1, L "to", sp1, L "launch", W],
    [W, L "raise", optG ["s"], W],
    [W, L "series", sp1, reqG ["a", "b", "c"], W],
    [W, L "funding", W],
    [W, L "acquire", optG ["s"], W],
    [W, L "acquisition", W],
    [W, L "integrat", optG ["es", "ed", "ing"], W],
    [W, L "add", optG ["s"], sp1, L "support", W],
    [W, L "expand", optG ["s"], sp1, L "to", W],
    [W, L "pilot", W],
    [W, L "trial", W],
    [W, L "mainnet", W],
    [W, L "testnet", W] ]

/-- `TIER2_ACTIVITY_PATTERNS` (app.py). -/
def TIER2_ACTIVITY_PATTERNS : List (List RAtom) :=
  [ [W, L "issu", reqG ["es", "ed", "ance"], W],
    [W, L "deploy", optG ["s", "ed", "ing"], W],
    [W, L "enabl", optG ["es", "ed", "ing"], W],
    [W, L "adopt", optG ["s", "ed", "ing"], W],
    [W, L "settlement", W],
    [W, L "tokeniz", reqG ["es", "ed", "ing", "ation"], W],
    [W, L "licen", reqG ["c", "s"], L "e", W],
    [W, L "authori", reqG ["s", "z"], L "ed", W] ]

/-- `COMMENTARY_PATTERNS` (app.py). -/
def COMMENTARY_PATTERNS : List (List RAtom) :=
  [ [W, L "deep", sp1, L "dive", W],
    [W, L "explainer", W],
    [W, L "what", sp1, L "is", W],
    [W, L "how", W],
    [W, L "why", W],
    [W, L "everything", sp1, L "you", sp1, L "need", W],
    [W, L "guide", W],
    [W, L "opinion", W],
    [W, L "analysis", W],
    [W, L "trends", W],
    [W, L "outlook", W],
    [W, L "forecast", W],
    [W, L "could", W],
    [W, L "may", W],
    [W, L "might", W] ]

/-- `_count(patterns, text)` from app.py: lowercase, then count how many
patterns have a search hit. -/
def patCount (patterns : List (List RAtom)) (text : List Char) : Nat :=
  (patterns.filter fun p => reSearch p (lowerCs text)).length

/-! ### URL machinery (`urllib.parse` fragment used by the repository)

`urlsplit` / `urlunsplit` / `urlparse` / `urlunparse` / `parse_qsl` /
`urlencode` are modelled after CPython's `urllib/parse.py` (ASCII text;
percent escapes decode single bytes).  `urlsplit`/`urlparse` raise
`ValueError` ("Invalid IPv6 URL") on a netloc holding an unbalanced
`[`/`]`; this fallible step is `urlsplitE`/`urlparseE` with `none` as the
raise (the version-stable check; the bracketed-host IP validation newer
CPython adds on top is outside the modelled fragment).  utils.py's
`canonicalize_url` has no handler, so the error propagates out of it
(`Option`-valued model); dedupe.py's `_canonicalize_url` catches every
exception and returns the stripped input unchanged. -/

def isSchemeChar (c : Char) : Bool := isAsciiAlpha c || isDigitCh c || c = '+' || c = '-' || c = '.'

structure SplitResult where
  scheme : List Char := []
  netloc : List Char := []
  path : List Char := []
  query : List Char := []
  fragment : List Char := []
deriving DecidableEq

/-- Scheme detection of `urlsplit`: a `:` at position > 0 preceded only by
scheme characters, the first being a letter; the scheme is lowercased. -/
def splitScheme (url : List Char) : List Char × List Char :=
  match splitAtFirst ':' url with
  | none => ([], url)
  | some (before, after) =>
      match before with
      | [] => ([], url)
      | c0 :: _ =>
          if isAsciiAlpha c0 && before.all isSchemeChar then (lowerCs before, after)
          else ([], url)

/-- `_splitnetloc`: the netloc runs up to the next `/`, `?` or `#`. -/
def takeNetloc : List Char → List Char × List Char
  | [] => ([], [])
  | c :: t =>
      if c = '/' || c = '?' || c = '#' then ([], c :: t)
      else
        let p := takeNetloc t
        (c :: p.1, p.2)

def urlsplitCs (url : List Char) : SplitResult :=
  let sr := splitScheme url
  let scheme := sr.1
  let rest := sr.2
  let nr :=
    match rest with
    | '/' :: '/' :: t => takeNetloc t
    | _ => ([], rest)
  let netloc := nr.1
  let rest2 := nr.2
  let fr :=
    match splitAtFirst '#' rest2 with
    | some (before, after) => (before, after)
    | none => (rest2, [])
  let qr :=
    match splitAtFirst '?' fr.1 with
    | some (before, after) => (before, after)
    | none => (fr.1, [])
  { scheme := scheme, netloc := netloc, path := qr.1, query := qr.2, fragment := fr.2 }

/-- The netloc condition on which `urlsplit` raises
`ValueError("Invalid IPv6 URL")`: a `[` without `]` or a `]` without `[`. -/
def netlocBroken (netloc : List Char) : Bool :=
  (netloc.contains '[' && ! netloc.contains ']') ||
    (netloc.contains ']' && ! netloc.contains '[')

/-- `urlsplit` with its raise: `none` models the `ValueError`. -/
def urlsplitE (url : List Char) : Option SplitResult :=
  let r := urlsplitCs url
  if netlocBroken r.netloc then none else some r

def urlunsplitCs (scheme netloc path query fragment : List Char) : List Char :=
  let url :=
    if netloc ≠ [] || (path ≠ [] && path.take 2 = ['/', '/']) then
      ('/' :: '/' :: netloc) ++ (if path ≠ [] && path.take 1 ≠ ['/'] then '/' :: path else path)
    else path
  let url := if scheme ≠ [] then scheme ++ ':' :: url else url
  let url := if query ≠ [] then url ++ '?' :: query else url
  if fragment ≠ [] then url ++ '#' :: fragment else url

structure ParseResult where
  scheme : List Char := []
  netloc : List Char := []
  path : List Char := []
  params : List Char := []
  query : List Char := []
  fragment : List Char := []
deriving DecidableEq

/-- `_splitparams`: split `;params` off the last path segment. -/
def splitParams (path : List Char) : List Char × List Char :=
  if path.contains ';' then
    if path.contains '/' then
      let segs := splitSep '/' path
      match segs.getLast? with
      | none => (path, [])
      | some lastSeg =>
          match splitAtFirst ';' lastSeg with
          | none => (path, [])
          | some (before, after) =>
              ((List.intercalate ['/'] (segs.dropLast ++ [before])), after)
    else
      match splitAtFirst ';' path with
      | none => (path, [])
      | some (before, after) => (before, after)
  else (path, [])

/-- `urlparse` = `urlsplit` + params split; it raises exactly when
`urlsplit` does. -/
def urlparseE (url : List Char) : Option ParseResult :=
  match urlsplitE url with
  | none => none
  | some s =>
      let pp := splitParams s.path
      some { scheme := s.scheme, netloc := s.netloc, path := pp.1, params := pp.2,
             query := s.query, fragment := s.fragment }

def urlunparseCs (scheme netloc path params query fragment : List Char) : List Char :=
  let path := if params ≠ [] then path ++ ';' :: params else path
  urlunsplitCs scheme netloc path query fragment

def hexVal (c : Char) : Option Nat :=
  let n := c.toNat
  if 48 ≤ n && n ≤ 57 then some (n - 48)
  else if 97 ≤ n && n ≤ 102 then some (n - 87)
  else if 65 ≤ n && n ≤ 70 then some (n - 55)
  else none

/-- `urllib.parse.unquote` on single-byte escapes (invalid escapes are kept
verbatim, as in CPython). -/
def unquoteCs : List Char → List Char
  | [] => []
  | '%' :: h1 :: h2 :: t =>
      match hexVal h1, hexVal h2 with
      | some a, some b => Char.ofNat (16 * a + b) :: unquoteCs t
      | _, _ => '%' :: unquoteCs (h1 :: h2 :: t)
  | c :: t => c :: unquoteCs t

/-- One `name=value` chunk of `parse_qsl` with `keep_blank_values=True`. -/
def qslChunk (chunk : List Char) : Option (List Char × List Char) :=
  if chunk = [] then none
  else
    match splitAtFirst '=' chunk with
    | some (n, v) =>
        some (unquoteCs (n.map fun c => if c = '+' then ' ' else c),
              unquoteCs (v.map fun c => if c = '+' then ' ' else c))
    | none =>
        some (unquoteCs (chunk.map fun c => if c = '+' then ' ' else c), [])

/-- `parse_qsl(qs, keep_blank_values=True)`. -/
def parseQsl (qs : List Char) : List (List Char × List Char) :=
  if qs = [] then [] else (splitSep '&' qs).filterMap qslChunk

def hexDigitUpper (n : Nat) : Char :=
  Char.ofNat (if n < 10 then 48 + n else 55 + n)

/-- UTF-8 bytes of a character (for percent-encoding). -/
def utf8Bytes (c : Char) : List Nat :=
  let n := c.toNat
  if n < 0x80 then [n]
  else if n < 0x800 then [0xC0 + n / 64, 0x80 + n % 64]
  else if n < 0x10000 then [0xE0 + n / 4096, 0x80 + n / 64 % 64, 0x80 + n % 64]
  else [0xF0 + n / 262144, 0x80 + n / 4096 % 64, 0x80 + n / 64 % 64, 0x80 + n % 64]

/-- `urllib.parse.quote_plus` with empty `safe`, as used by `urlencode`. -/
def quotePlusChar (c : Char) : List Char :=
  if isAsciiAlpha c || isDigitCh c || c = '_' || c = '.' || c = '-' || c = '~' then [c]
  else if c = ' ' then ['+']
  else (utf8Bytes c).flatMap fun b => ['%', hexDigitUpper (b / 16), hexDigitUpper (b % 16)]

def quotePlus (s : List Char) : List Char := s.flatMap quotePlusChar

/-- `urlencode(q, doseq=True)` over string pairs. -/
def urlencodeQ (q : List (List Char × List Char)) : List Char :=
  List.intercalate ['&'] (q.map fun kv => quotePlus kv.1 ++ '=' :: quotePlus kv.2)

/-! ### `canonicalize_url` from `src/src/utils.py` -/

/-- `_TRACKING_KEYS_PREFIXES` / `_TRACKING_KEYS` filter of utils.py:
drop a parameter whose lowercased name starts with `utm_` or is one of
`gclid`, `fbclid`, `mc_cid`, `mc_eid`. -/
def isTrackingUtils (k : List Char) : Bool :=
  let lk := lowerCs k
  "utm_".data.isPrefixOf lk ||
    ["gclid".data, "fbclid".data, "mc_cid".data, "mc_eid".data].contains lk

/-- utils.py's `canonicalize_url` body; it wraps no `try`, so a
`ValueError` from `urlsplit` propagates to the caller (`none`). -/
def canonicalizeUrlCs (url : List Char) : Option (List Char) :=
  if url = [] then some []
  else
    match urlsplitE url with
    | none => none
    | some parts =>
        let query := parseQsl parts.query
        let filtered := query.filter fun kv => ! isTrackingUtils kv.1
        some (urlunsplitCs parts.scheme parts.netloc parts.path (urlencodeQ filtered) [])

/-- `canonicalize_url` (utils.py); `none` is the uncaught `ValueError`. -/
def canonicalize_url (url : String) : Option String :=
  (canonicalizeUrlCs url.data).map fun s => (⟨s⟩ : String)

/-! ### `_canonicalize_url` from `src/src/dedupe.py` -/

/-- `_UTM_KEYS` of dedupe.py (exact-name set). -/
def UTM_KEYS : List (List Char) :=
  ["utm_source", "utm_medium", "utm_campaign", "utm_term", "utm_content",
   "utm_id", "utm_name", "utm_reader", "utm_referrer", "utm_social",
   "gclid", "fbclid"].map String.data

def isTrackingDedupe (k : List Char) : Bool := UTM_KEYS.contains (lowerCs k)

/-- `str.replace("www.", "")` — remove every (non-overlapping, left-to-right)
occurrence. -/
def removeWWW : List Char → List Char
  | 'w' :: 'w' :: 'w' :: '.' :: t => removeWWW t
  | c :: t => c :: removeWWW t
  | [] => []

def canonicalizeUrlDedupeCs (url : List Char) : List Char :=
  if url = [] then []
  else
    let url := stripCs url
    match urlparseE url with
    | none => url
    | some p =>
        let netloc := removeWWW (lowerCs p.netloc)
        let q := (parseQsl p.query).filter fun kv => ! isTrackingDedupe kv.1
        let query := urlencodeQ q
        urlunparseCs p.scheme netloc p.path p.params query []

/-- `_canonicalize_url` (dedupe.py). -/
def canonicalize_url_dedupe (url : String) : String := ⟨canonicalizeUrlDedupeCs url.data⟩

/-! ### Title normalization and tokenization (`src/src/dedupe.py`) -/

/-- `STOPWORDS` (dedupe.py). -/
def STOPWORDS : List (List Char) :=
  ["the", "a", "an", "and", "or", "to", "of", "in", "on", "for", "with", "as",
   "by", "from", "at", "is", "are", "was", "were", "be", "been", "being", "it",
   "its", "this", "that", "these", "those", "after", "before", "into", "over",
   "under", "about", "amid", "says", "said", "report", "reports"].map String.data

/-- Separator class `[-|•]` of `_OUTLET_TAIL_RE`. -/
def isOutletSep (c : Char) : Bool := c = '-' || c = '|' || c = '•'

/-- Final segment `[^-]{2,60}$` of `_OUTLET_TAIL_RE`. -/
def outletBody (s : List Char) : Bool :=
  2 ≤ s.length && s.length ≤ 60 && s.all (· ≠ '-')

/-- After `\s+[-|•]\s` was consumed: `\s*[^-]{2,60}$` (the rest of the
second `\s+` folded into the body / further spaces). -/
def outletAfterSp (s : List Char) : Bool :=
  outletBody s ||
    match s with
    | [] => false
    | c :: t => isPySpace c && outletAfterSp t

/-- After `\s+[-|•]` was consumed: `\s+[^-]{2,60}$`. -/
def outletAfterSep : List Char → Bool
  | [] => false
  | c :: t => isPySpace c && outletAfterSp t

/-- After one leading space was consumed: rest of `\s+[-|•]\s+[^-]{2,60}$`. -/
def outletAfterSp1 : List Char → Bool
  | [] => false
  | c :: t => (isPySpace c && outletAfterSp1 t) || (isOutletSep c && outletAfterSep t)

/-- Does `_OUTLET_TAIL_RE` = `\s+[-|•]\s+[^-]{2,60}$` match starting here
(and, being `$`-anchored, running to the end)? -/
def outletTailAt : List Char → Bool
  | [] => false
  | c :: t => isPySpace c && outletAfterSp1 t

/-- `_OUTLET_TAIL_RE.sub("", t)`: remove the leftmost (hence, due to the
`$` anchor, the only) match. -/
def cutOutletTailAux : List Char → List Char → List Char
  | acc, rem =>
      if outletTailAt rem then acc.reverse
      else
        match rem with
        | [] => acc.reverse
        | c :: t => cutOutletTailAux (c :: acc) t

def cutOutletTail (s : List Char) : List Char := cutOutletTailAux [] s

/-- `re.sub(r"[^a-z0-9\s]", " ", t)`. -/
def blankNonAlnum (s : List Char) : List Char :=
  s.map fun c => if ('a' ≤ c && c ≤ 'z') || isDigitCh c || isPySpace c then c else ' '

/-- `re.sub(r"\s+", " ", t)`: one `' '` per whitespace run (the flag says
"inside a run"). -/
def collapseWsAux : Bool → List Char → List Char
  | _, [] => []
  | inSp, c :: t =>
      if isPySpace c then
        if inSp then collapseWsAux true t else ' ' :: collapseWsAux true t
      else c :: collapseWsAux false t

def collapseWs (s : List Char) : List Char := collapseWsAux false s

/-- `_title_key` (dedupe.py). -/
def titleKeyCs (title : List Char) : List Char :=
  let t := lowerCs (stripCs title)
  let t := cutOutletTail t
  let t := blankNonAlnum t
  stripCs (collapseWs t)

def title_key (title : String) : String := ⟨titleKeyCs title.data⟩

/-- `_tokenize` (dedupe.py): a Python `set` of tokens is a `Finset`. -/
def tokenize (title : String) : Finset (List Char) :=
  ((splitWs (titleKeyCs title.data)).filter fun w =>
    w ≠ [] && ¬ STOPWORDS.contains w && 2 < w.length).toFinset

/-- `_jaccard` (dedupe.py); float division realized as the exact rational. -/
def jaccard (a b : Finset (List Char)) : ℚ :=
  if a = ∅ ∨ b = ∅ then 0
  else
    let inter := (a ∩ b).card
    let union := (a ∪ b).card
    if union ≠ 0 then mkRat inter union else 0

/-! ### The item record -/

/-- Breakdown map written by the scorers (`score_breakdown`); the two
cluster keys are added later by `cluster_and_select` and are `none` until
then. -/
structure Breakdown where
  tier1 : Nat := 0
  tier2 : Nat := 0
  commentary : Nat := 0
  listicle : Nat := 0
  generic : Nat := 0
  freshness : Int := 0
  source_penalty : Int := 0
  launch_score : Int := 0
  institution_bonus : Int := 0
  financial_bonus : Int := 0
  regulatory_bonus : Int := 0
  commentary_penalty : Int := 0
  listicle_penalty : Int := 0
  generic_penalty : Int := 0
  consensus_boost : Option Int := none
  cluster_size : Option Nat := none
deriving DecidableEq

/-- An item dict.  String keys that may be absent or `None` are modelled as
`""` (both are falsy and every read in the core goes through `or`-defaulting
or `.get(k, '')`).  `extra` stands for all keys the core never touches. -/
structure Item where
  title : String := ""
  snippet : String := ""
  link : String := ""
  url : String := ""
  source_name : String := ""
  source : String := ""
  published_at : String := ""
  source_type : String := ""
  score : Option Int := none
  score_breakdown : Option Breakdown := none
  consensus_boost : Option Int := none
  cluster_size : Option Nat := none
  cluster_sources : Option (List String) := none
  extra : List (String × String) := []
deriving DecidableEq

/-! ### `hard_dedupe` (dedupe.py) -/

/-- The dedupe key of one item: canonical URL of `link or url or ""` when
truthy, else `"title:" + _title_key(title)`. -/
def keyOf (it : Item) : List Char :=
  let url := stripCs (if it.link ≠ "" then it.link else it.url).data
  let k := canonicalizeUrlDedupeCs url
  if k = [] then "title:".data ++ titleKeyCs it.title.data else k

def dedupeGo (seen : List (List Char)) : List Item → List Item
  | [] => []
  | it :: rest =>
      let k := keyOf it
      if k = [] ∨ k ∈ seen then dedupeGo seen rest
      else it :: dedupeGo (k :: seen) rest

/-- `hard_dedupe` (dedupe.py). -/
def hard_dedupe (items : List Item) : List Item := dedupeGo [] items

/-! ### `cluster_and_select` (dedupe.py) -/

/-- `_consensus_boost` (dedupe.py). -/
def consensus_boost (unique_sources : Nat) : Int :=
  if unique_sources ≤ 1 then 0
  else if unique_sources = 2 then 5
  else if unique_sources = 3 then 10
  else 15

/-- `sim_threshold` default of `cluster_and_select` (float 0.65). -/
def simThresholdDefault : ℚ := mkRat 65 100

/-- `m.get("source_name") or m.get("source") or "Unknown"`. -/
def srcOf (m : Item) : String :=
  if m.source_name ≠ "" then m.source_name
  else if m.source ≠ "" then m.source else "Unknown"

/-- `rep_key`: `(int(m.get("score") or 0), m.get("published_at") or "")`,
Python string order = lexicographic code-point order on the char list. -/
def repKey (m : Item) : Int × List Char := (m.score.getD 0, m.published_at.data)

/-- Strict Python tuple `<` on `(int, str)` keys. -/
def repKeyLt (a b : Int × List Char) : Bool :=
  a.1 < b.1 || (a.1 = b.1 && a.2 < b.2)

/-- `sorted(members, key=rep_key, reverse=True)[0]`: the first member with
the maximal key (Python's sort is stable, so among equal maximal keys the
earliest member wins — the same element this left fold keeps). -/
def pickRep (x : Item) (xs : List Item) : Item :=
  xs.foldl (fun best m => if repKeyLt (repKey best) (repKey m) then m else best) x

/-- Ascending `sorted(...)` on strings by insertion (all duplicates already
removed by the caller). -/
def insertSorted (s : List Char) : List (List Char) → List (List Char)
  | [] => [s]
  | t :: ts => if s ≤ t then s :: t :: ts else t :: insertSorted s ts

def sortCsList (l : List (List Char)) : List (List Char) :=
  l.foldr insertSorted []

/-- A cluster member: the item paired with its cached title-token set. -/
abbrev Member := Item × Finset (List Char)

/-- Token set of a cluster's first member (`cl[0][1]`; clusters are never
empty). -/
def headTok : List Member → Finset (List Char)
  | [] => ∅
  | m :: _ => m.2

/-- One step of the clustering loop: scan existing clusters in creation
order; append to the first whose first-member token set is similar enough,
else open a new singleton cluster. -/
def placeStep (θ : ℚ) (x : Member) : List (List Member) → List (List Member)
  | [] => [[x]]
  | cl :: rest =>
      if θ ≤ jaccard x.2 (headTok cl) then (cl ++ [x]) :: rest
      else cl :: placeStep θ x rest

/-- The cluster list built by the first loop of `cluster_and_select`. -/
def clustersOf (θ : ℚ) (items : List Item) : List (List Member) :=
  (items.map fun it => (it, tokenize it.title)).foldl (fun cs x => placeStep θ x cs) []

/-- Distinct sources of a cluster (`len(set(srcs))` uses its length;
`sorted(set(srcs))` is `sortCsList` of it). -/
def clusterSrcs (members : List Item) : List (List Char) :=
  (members.map fun m => (srcOf m).data).dedup

/-- The per-cluster selection/update of `cluster_and_select`. -/
def processCluster (cl : List Member) : Item :=
  let members := cl.map Prod.fst
  let boost := consensus_boost (clusterSrcs members).length
  match members with
  | [] => {}
  | x :: xs =>
      let rep := pickRep x xs
      { rep with
        consensus_boost := some boost,
        cluster_size := some members.length,
        cluster_sources := some ((sortCsList (clusterSrcs members)).map fun s => (⟨s⟩ : String)),
        score := some (rep.score.getD 0 + boost),
        score_breakdown :=
          match rep.score_breakdown with
          | some b => some { b with consensus_boost := some boost,
                                    cluster_size := some members.length }
          | none => none }

/-- `cluster_and_select` (dedupe.py); its unused `now_utc` parameter is
omitted, `sim_threshold` is explicit (default `simThresholdDefault`). -/
def cluster_and_select (items : List Item) (θ : ℚ) : List Item :=
  if items = [] then [] else (clustersOf θ items).map processCluster

/-! ### Freshness (`datetime.fromisoformat`-based path shared by both
scorers)

`published_at.replace("Z", "+00:00")` is parsed; an aware datetime is
converted to epoch seconds.  A string that does not fit the modelled
`YYYY-MM-DD(T| )HH:MM[:SS]±HH:MM` aware format yields `none`: in the source
both a parse failure and a naive result end in the `except` branch (the
latter via the `TypeError` of `aware - naive`), leaving freshness 0. -/

def digitsToNat (ds : List Char) : Nat :=
  ds.foldl (fun acc c => 10 * acc + (c.toNat - 48)) 0

/-- Take exactly `n` digits. -/
def takeDigits (n : Nat) (s : List Char) : Option (Nat × List Char) :=
  let pre := s.take n
  if pre.length = n ∧ pre.all isDigitCh then some (digitsToNat pre, s.drop n) else none

def isLeapYear (y : Nat) : Bool := y % 4 = 0 && (y % 100 ≠ 0 || y % 400 = 0)

def daysInMonth (y m : Nat) : Nat :=
  if m = 2 then (if isLeapYear y then 29 else 28)
  else if m = 4 ∨ m = 6 ∨ m = 9 ∨ m = 11 then 30 else 31

/-- Days from 1970-01-01 to y-m-d (proleptic Gregorian, the
`days_from_civil` algorithm; valid for years ≥ 1). -/
def daysFromCivil (y m d : Nat) : Int :=
  let ys := y - (if m ≤ 2 then 1 else 0)
  let era := ys / 400
  let yoe := ys % 400
  let doy := (153 * (if 2 < m then m - 3 else m + 9) + 2) / 5 + d - 1
  let doe := yoe * 365 + yoe / 4 - yoe / 100 + doy
  (era * 146097 + doe : Int) - 719468

/-- Epoch seconds of an aware ISO timestamp (see section comment). -/
def parseIsoAware (s : List Char) : Option Int := do
  let (y, s) ← takeDigits 4 s
  let s ← match s with | '-' :: t => some t | _ => none
  let (mo, s) ← takeDigits 2 s
  let s ← match s with | '-' :: t => some t | _ => none
  let (d, s) ← takeDigits 2 s
  let s ← match s with
    | 'T' :: t => some t
    | ' ' :: t => some t
    | _ => none
  let (h, s) ← takeDigits 2 s
  let s ← match s with | ':' :: t => some t | _ => none
  let (mi, s) ← takeDigits 2 s
  let (sec, s) ←
    match s with
    | ':' :: t => takeDigits 2 t
    | _ => some (0, s)
  let (sign, s) ←
    match s with
    | '+' :: t => some ((1 : Int), t)
    | '-' :: t => some ((-1 : Int), t)
    | _ => none
  let (oh, s) ← takeDigits 2 s
  let s ← match s with | ':' :: t => some t | _ => none
  let (om, s) ← takeDigits 2 s
  if s = [] ∧ 1 ≤ y ∧ y ≤ 9999 ∧ 1 ≤ mo ∧ mo ≤ 12 ∧ 1 ≤ d ∧ d ≤ daysInMonth y mo ∧
      h ≤ 23 ∧ mi ≤ 59 ∧ sec ≤ 59 ∧ oh ≤ 23 ∧ om ≤ 59 then
    some (daysFromCivil y mo d * 86400 + (h * 3600 + mi * 60 + sec : Nat) -
      sign * (oh * 3600 + om * 60 : Nat))
  else none

/-- `.replace("Z", "+00:00")` (every occurrence, as `str.replace` does). -/
def replaceZ (s : List Char) : List Char :=
  s.flatMap fun c => if c = 'Z' then "+00:00".data else [c]

/-- The freshness block shared by `score_item` and `score_item_improved`:
`now_utc` is epoch seconds; `hours ≤ 6 → 10`, `hours ≤ 24 → 4`
(`(now - dt).total_seconds()/3600 ≤ h` iff `now - dt ≤ h*3600` exactly). -/
def freshnessOf (published_at : String) (now_utc : Int) : Int :=
  if published_at = "" then 0
  else
    match parseIsoAware (replaceZ published_at.data) with
    | none => 0
    | some t =>
        if now_utc - t ≤ 6 * 3600 then 10
        else if now_utc - t ≤ 24 * 3600 then 4
        else 0

/-! ### `improved_scoring.py` lexicons -/

def TIER1_INSTITUTIONS : List (List Char) :=
  ["jpmorgan", "jp morgan", "goldman sachs", "goldman", "bank of america", "bofa",
   "citibank", "citi", "citigroup", "morgan stanley", "wells fargo",
   "hsbc", "barclays", "ubs", "credit suisse", "deutsche bank",
   "bnp paribas", "societe generale", "standard chartered",
   "fidelity", "blackrock", "vanguard", "state street", "pimco",
   "paypal", "visa", "mastercard", "stripe", "square", "block", "revolut",
   "checkout.com", "adyen", "wise", "plaid"].map String.data

def TIER2_INSTITUTIONS : List (List Char) :=
  ["coinbase", "binance", "kraken", "gemini", "circle", "ripple",
   "paxos", "anchorage", "bitstamp", "bitfinex", "bybit", "okx",
   "tether", "usdc"].map String.data

def REGULATORS : List (List Char) :=
  ["sec", "securities and exchange", "federal reserve", "fed", "treasury",
   "fdic", "occ", "comptroller of the currency", "cftc",
   "central bank", "ecb", "european central bank", "bank of england",
   "monetary authority", "financial authority", "securities commission",
   "finra", "financial conduct authority", "fca", "esma", "mifid",
   "peoples bank of china", "pboc", "reserve bank", "bank negara"].map String.data

def REGULATORY_KEYWORDS : List (List Char) :=
  ["approval", "approves", "approved", "authorizes", "authorized", "authorization",
   "regulation", "regulatory", "compliance", "compliant", "licensed", "licensing",
   "guidance", "ruling", "rules", "rule", "law", "legislation", "legislative",
   "sanctions", "sanctioned", "enforcement", "investigation", "investigates",
   "permits", "permitted", "permission", "clears", "cleared", "greenlight"].map String.data

/-- `FINANCIAL_PATTERNS` (improved_scoring.py), in source order with the
source bonuses. -/
def FINANCIAL_PATTERNS : List (List RAtom × Int) :=
  [ ([L "$", d1, sp0, L "trillion"], 50),
    ([d1, sp0, L "trillion"], 50),
    ([L "$", d1, sp0, L "billion"], 40),
    ([d1, sp0, L "billion"], 40),
    ([L "$", d1, optG ["."], d0, sp0, L "bn"], 40),
    ([d1, optG ["."], d0, sp0, L "bn"], 40),
    ([L "$", d3, sp0, L "million"], 30),
    ([d3, sp0, L "million"], 30),
    ([L "$", d1, optG ["."], d0, sp0, L "mn"], 30) ]

/-! ### `improved_scoring.py` scorer -/

/-- `f"{item.get('title','')} {item.get('snippet','')}".lower()`. -/
def textOf (item : Item) : List Char :=
  lowerCs (item.title.data ++ ' ' :: item.snippet.data)

def anySub (text : List Char) (terms : List (List Char)) : Bool :=
  terms.any fun term => containsSub text term

/-- `get_institution_bonus` (improved_scoring.py). -/
def get_institution_bonus (item : Item) : Int :=
  let text := textOf item
  if anySub text REGULATORS then 30
  else if anySub text TIER1_INSTITUTIONS then 20
  else if anySub text TIER2_INSTITUTIONS then 10
  else 0

/-- `get_financial_impact_bonus` (improved_scoring.py): first pattern hit
in table order wins. -/
def finBonusScan (text : List Char) : List (List RAtom × Int) → Int
  | [] => 0
  | (p, bonus) :: rest => if reSearch p text then bonus else finBonusScan text rest

def get_financial_impact_bonus (item : Item) : Int :=
  finBonusScan (textOf item) FINANCIAL_PATTERNS

/-- `get_regulatory_bonus` (improved_scoring.py). -/
def get_regulatory_bonus (item : Item) : Int :=
  let text := textOf item
  let title := lowerCs item.title.data
  if anySub title REGULATORS ∧ anySub text REGULATORY_KEYWORDS then 40
  else if anySub text REGULATORY_KEYWORDS then 15
  else 0

/-- `get_commentary_penalty` (improved_scoring.py). -/
def get_commentary_penalty (item : Item) (comm_count : Nat) : Int :=
  let text := textOf item
  let has_institution := anySub text TIER1_INSTITUTIONS || anySub text REGULATORS
  if has_institution then -(min (comm_count * 10 : Int) 30)
  else -(min (comm_count * 20 : Int) 50)

/-- `score = max(score, fl) if c` — a floor override. -/
def clampFloor (c : Prop) [Decidable c] (fl s : Int) : Int := if c then max s fl else s

/-- `score = min(score, cap) if c` — a ceiling override. -/
def clampCeil (c : Prop) [Decidable c] (cap s : Int) : Int := if c then min s cap else s

/-- The base sum of `score_item_improved` plus its four "smart override"
floors (source lines up to the hard rejects). -/
def improvedPreReject (item : Item) (now_utc : Int)
    (tier1_count tier2_count comm_count listicle_count generic_count : Nat) : Int :=
  let source_type := item.source_type
  let launch_score : Int := min (tier1_count * 25 : Int) 60 + min (tier2_count * 10 : Int) 30
  let institution_bonus := get_institution_bonus item
  let financial_bonus := get_financial_impact_bonus item
  let regulatory_bonus := get_regulatory_bonus item
  let commentary_penalty := get_commentary_penalty item comm_count
  let listicle_penalty : Int := -(min (listicle_count * 100 : Int) 200)
  let generic_penalty : Int := -(min (generic_count * 50 : Int) 100)
  let source_penalty : Int := if source_type = "telegram" then -15 else 0
  let freshness := freshnessOf item.published_at now_utc
  let score := launch_score + institution_bonus + financial_bonus + regulatory_bonus +
    commentary_penalty + listicle_penalty + generic_penalty + source_penalty + freshness
  let score := clampFloor (institution_bonus ≥ 20 ∧ (1 ≤ tier1_count ∨ 1 ≤ tier2_count)) 40 score
  let score := clampFloor (regulatory_bonus ≥ 40) 50 score
  let score := clampFloor (financial_bonus ≥ 30 ∧ institution_bonus ≥ 10) 45 score
  let text := textOf item
  let has_central_bank := anySub text (["central bank", "monetary authority"].map String.data)
  let has_crypto := anySub text (["stablecoin", "tokenized", "tokenization", "cbdc"].map String.data)
  clampFloor (has_central_bank ∧ has_crypto) 50 score

/-- The final score of `score_item_improved`: the two hard-reject /
suppression ceilings, then the basic-launch floor, applied in source
order on top of `improvedPreReject`. -/
def improvedScoreVal (item : Item) (now_utc : Int)
    (tier1_count tier2_count comm_count listicle_count generic_count : Nat) : Int :=
  clampFloor (1 ≤ tier1_count ∧ comm_count ≤ 1 ∧ listicle_count = 0 ∧ generic_count = 0) 35
    (clampCeil (2 ≤ comm_count ∧ tier1_count = 0 ∧ tier2_count = 0 ∧
        get_institution_bonus item = 0) 10
      (clampCeil (1 ≤ listicle_count ∨ 1 ≤ generic_count) (-50)
        (improvedPreReject item now_utc tier1_count tier2_count comm_count
          listicle_count generic_count)))

/-- `score_item_improved` (improved_scoring.py). -/
def score_item_improved (item : Item) (now_utc : Int)
    (tier1_count tier2_count comm_count listicle_count generic_count : Nat) : Item :=
  let launch_score : Int := min (tier1_count * 25 : Int) 60 + min (tier2_count * 10 : Int) 30
  let institution_bonus := get_institution_bonus item
  let financial_bonus := get_financial_impact_bonus item
  let regulatory_bonus := get_regulatory_bonus item
  let commentary_penalty := get_commentary_penalty item comm_count
  let listicle_penalty : Int := -(min (listicle_count * 100 : Int) 200)
  let generic_penalty : Int := -(min (generic_count * 50 : Int) 100)
  let source_penalty : Int := if item.source_type = "telegram" then -15 else 0
  let freshness := freshnessOf item.published_at now_utc
  let score := improvedScoreVal item now_utc tier1_count tier2_count comm_count
    listicle_count generic_count
  { item with
    score := some score,
    score_breakdown := some
      { tier1 := tier1_count, tier2 := tier2_count, commentary := comm_count,
        listicle := listicle_count, generic := generic_count,
        freshness := freshness, source_penalty := source_penalty,
        launch_score := launch_score, institution_bonus := institution_bonus,
        financial_bonus := financial_bonus, regulatory_bonus := regulatory_bonus,
        commentary_penalty := commentary_penalty, listicle_penalty := listicle_penalty,
        generic_penalty := generic_penalty } }

/-! ### Legacy scorer (`score_item` in app.py)

Its breakdown dict has only the six legacy keys; reusing `Breakdown` with
the remaining fields at their zero/`none` defaults models the absent keys. -/

def score_item (item : Item) (now_utc : Int) : Item :=
  let text := textOf item
  let tier1 := patCount TIER1_LAUNCH_PATTERNS text
  let tier2 := patCount TIER2_ACTIVITY_PATTERNS text
  let comm := patCount COMMENTARY_PATTERNS text
  let launch_score : Int := min (tier1 * 25 : Int) 60 + min (tier2 * 10 : Int) 30
  let commentary_penalty : Int := -(min (comm * 20 : Int) 50)
  let freshness := freshnessOf item.published_at now_utc
  let score := launch_score + commentary_penalty + freshness
  let score := clampFloor (1 ≤ tier1 ∧ comm ≤ 1) 35 score
  let score := clampCeil (2 ≤ comm ∧ tier1 = 0) 10 score
  { item with
    score := some score,
    score_breakdown := some
      { tier1 := tier1, tier2 := tier2, commentary := comm,
        freshness := freshness, launch_score := launch_score,
        commentary_penalty := commentary_penalty } }

/-! ### Concrete items used by witnesses and counterexamples -/

/-- Listicle-flagged JPMorgan item of the reject-precedence spec example. -/
def rejectItem : Item := { title := "JPMorgan Top 10 crypto coins" }

/-- Item whose text triggers an institution bonus but no legacy pattern. -/
def jpmItem : Item := { title := "jpmorgan" }

/-- Bare-`mn` monetary amount (no currency symbol). -/
def bareMnItem : Item := { title := "startup secures 750mn" }

/-- Two items with identical normalized titles whose token set is empty
(`go` and `on` are both too short / stopwords). -/
def emptyTokA : Item := { title := "go on", source := "A" }

def emptyTokB : Item := { title := "go on", source := "B" }

/-- Two items with identical non-empty token sets from distinct sources. -/
def stableA : Item := { title := "Acme Stablecoin", source := "A" }

def stableB : Item := { title := "acme stablecoin!", source := "B" }

/-- Two URL-less, title-less items. -/
def emptyKeyA : Item := {}

def emptyKeyB : Item := { snippet := "still no url and no title" }

/-- The spec's representative-selection example: A(score 10), B(score 50),
two sources, near-identical titles. -/
def repExA : Item :=
  { title := "Acme Launches Super Stablecoin", source := "A", score := some 10,
    published_at := "2024-01-01T00:00:00Z" }

def repExB : Item :=
  { title := "Acme launches super stablecoin - Reuters", source := "B", score := some 50 }

def repExCluster : List Member :=
  [(repExA, tokenize repExA.title), (repExB, tokenize repExB.title)]

/-- Non-strict Python tuple `≤` on `(int, str)` keys (the order in which
`sorted(..., key=rep_key)` ranks members; string `≤` is the lexicographic
code-point order). -/
def repKeyLe (a b : Int × List Char) : Prop :=
  a.1 < b.1 ∨ (a.1 = b.1 ∧ a.2 ≤ b.2)

/-! ## Theorems -/

/-- Claim C1: for every item and every combination of signal counts, if
`listicle_count ≥ 1` or `generic_count ≥ 1` then the score produced by
`score_item_improved` is ≤ −50, regardless of any institution, financial,
regulatory or central-bank floor that fired earlier (the hard-reject
ceiling is applied after all floors, and the only later floor requires
both counts to be zero). -/
theorem clampCeil_le_self (c : Prop) [Decidable c] (cap s : Int) :
    clampCeil c cap s ≤ s := by
  unfold clampCeil
  split_ifs
  · exact min_le_left s cap
  · exact le_refl s

theorem clampCeil_le_cap (c : Prop) [Decidable c] (cap s : Int) (h : c) :
    clampCeil c cap s ≤ cap := by
  unfold clampCeil
  rw [if_pos h]
  exact min_le_right s cap

theorem clampFloor_of_not (c : Prop) [Decidable c] (fl s : Int) (h : ¬ c) :
    clampFloor c fl s = s := if_neg h

theorem claim_C1 (item : Item) (now_utc : Int)
    (t1 t2 comm lc gc : Nat) (h : 1 ≤ lc ∨ 1 ≤ gc) :
    ∃ n : Int, (score_item_improved item now_utc t1 t2 comm lc gc).score = some n ∧
      n ≤ -50 := by
  refine ⟨_, rfl, ?_⟩
  unfold improvedScoreVal
  rw [clampFloor_of_not _ _ _ (by rintro ⟨-, -, h3, h4⟩; omega)]
  calc clampCeil (2 ≤ comm ∧ t1 = 0 ∧ t2 = 0 ∧ get_institution_bonus item = 0) 10
        (clampCeil (1 ≤ lc ∨ 1 ≤ gc) (-50)
          (improvedPreReject item now_utc t1 t2 comm lc gc)) ≤
      clampCeil (1 ≤ lc ∨ 1 ≤ gc) (-50)
        (improvedPreReject item now_utc t1 t2 comm lc gc) :=
      clampCeil_le_self _ _ _
    _ ≤ -50 := clampCeil_le_cap _ _ _ h

/-- Claim C1 witness: the spec's own example — an item mentioning
"JPMorgan" with two listicle-pattern hits still ends ≤ −50. -/
theorem claim_C1_witness :
    (1 ≤ 2 ∨ 1 ≤ 0) ∧
      ∃ n : Int, (score_item_improved rejectItem 0 1 0 0 2 0).score = some n ∧ n ≤ -50 :=
  ⟨Or.inl (by norm_num), claim_C1 rejectItem 0 1 0 0 2 0 (Or.inl (by norm_num))⟩

/-- Claim C9: the legacy scorer (`score_item`, app.py) and the layered
scorer (`score_item_improved`) are not equivalent — for the item with
title `"jpmorgan"` (all legacy-derived signal counts are 0, listicle and
generic are 0, same reference time) the legacy scorer yields 0 while the
layered scorer yields 20 (tier-1 institution bonus). -/
theorem claim_C9 :
    (score_item jpmItem 0).score = some 0 ∧
    (score_item_improved jpmItem 0
        (patCount TIER1_LAUNCH_PATTERNS (textOf jpmItem))
        (patCount TIER2_ACTIVITY_PATTERNS (textOf jpmItem))
        (patCount COMMENTARY_PATTERNS (textOf jpmItem)) 0 0).score = some 20 ∧
    (score_item jpmItem 0).score ≠
      (score_item_improved jpmItem 0
        (patCount TIER1_LAUNCH_PATTERNS (textOf jpmItem))
        (patCount TIER2_ACTIVITY_PATTERNS (textOf jpmItem))
        (patCount COMMENTARY_PATTERNS (textOf jpmItem)) 0 0).score := by
  decide

/-- Claim C10: `score_item_improved` only touches `score` (always set to
an integer) and `score_breakdown` (set to the map of the five input counts
and the named components); every other field of the item is unchanged. -/
theorem claim_C10 (item : Item) (now_utc : Int) (t1 t2 comm lc gc : Nat) :
    (score_item_improved item now_utc t1 t2 comm lc gc).title = item.title ∧
    (score_item_improved item now_utc t1 t2 comm lc gc).snippet = item.snippet ∧
    (score_item_improved item now_utc t1 t2 comm lc gc).link = item.link ∧
    (score_item_improved item now_utc t1 t2 comm lc gc).url = item.url ∧
    (score_item_improved item now_utc t1 t2 comm lc gc).source_name = item.source_name ∧
    (score_item_improved item now_utc t1 t2 comm lc gc).source = item.source ∧
    (score_item_improved item now_utc t1 t2 comm lc gc).published_at = item.published_at ∧
    (score_item_improved item now_utc t1 t2 comm lc gc).source_type = item.source_type ∧
    (score_item_improved item now_utc t1 t2 comm lc gc).consensus_boost =
      item.consensus_boost ∧
    (score_item_improved item now_utc t1 t2 comm lc gc).cluster_size = item.cluster_size ∧
    (score_item_improved item now_utc t1 t2 comm lc gc).cluster_sources =
      item.cluster_sources ∧
    (score_item_improved item now_utc t1 t2 comm lc gc).extra = item.extra ∧
    (score_item_improved item now_utc t1 t2 comm lc gc).score =
      some (improvedScoreVal item now_utc t1 t2 comm lc gc) ∧
    (score_item_improved item now_utc t1 t2 comm lc gc).score_breakdown = some
      { tier1 := t1, tier2 := t2, commentary := comm, listicle := lc, generic := gc,
        freshness := freshnessOf item.published_at now_utc,
        source_penalty := if item.source_type = "telegram" then -15 else 0,
        launch_score := min (t1 * 25 : Int) 60 + min (t2 * 10 : Int) 30,
        institution_bonus := get_institution_bonus item,
        financial_bonus := get_financial_impact_bonus item,
        regulatory_bonus := get_regulatory_bonus item,
        commentary_penalty := get_commentary_penalty item comm,
        listicle_penalty := -(min (lc * 100 : Int) 200),
        generic_penalty := -(min (gc * 50 : Int) 100) } :=
  ⟨rfl, rfl, rfl, rfl, rfl, rfl, rfl, rfl, rfl, rfl, rfl, rfl, rfl, rfl⟩

/-- Claim C6 counterexample: the claim says a bare `mn` amount (no
currency symbol) yields bonus 30, but `FINANCIAL_PATTERNS` has no bare-`mn`
entry — `"startup secures 750mn"` matches nothing and gets 0. -/
theorem claim_C6_counterexample : get_financial_impact_bonus bareMnItem = 0 := by
  decide

/-- Claim C6 (amended): the financial bonus scans `FINANCIAL_PATTERNS`
top-down and stops at the first match over the lowercased title+snippet
text, yielding 50 for trillion amounts (with or without a currency
symbol), 40 for billion and `bn` amounts (each with or without a symbol),
and 30 for ≥100-million amounts (with or without a symbol) and for `mn`
amounts only with a currency symbol (there is no bare-`mn` pattern), and
0 when no pattern matches. -/
theorem claim_C6_amended (item : Item) :
    get_financial_impact_bonus item =
      (if reSearch [L "$", d1, sp0, L "trillion"] (textOf item) ∨
          reSearch [d1, sp0, L "trillion"] (textOf item) then 50
       else if reSearch [L "$", d1, sp0, L "billion"] (textOf item) ∨
          reSearch [d1, sp0, L "billion"] (textOf item) ∨
          reSearch [L "$", d1, optG ["."], d0, sp0, L "bn"] (textOf item) ∨
          reSearch [d1, optG ["."], d0, sp0, L "bn"] (textOf item) then 40
       else if reSearch [L "$", d3, sp0, L "million"] (textOf item) ∨
          reSearch [d3, sp0, L "million"] (textOf item) ∨
          reSearch [L "$", d1, optG ["."], d0, sp0, L "mn"] (textOf item) then 30
       else 0) := by
  simp only [get_financial_impact_bonus, FINANCIAL_PATTERNS, finBonusScan]
  split_ifs <;> simp_all

/-- The dedupe key is never the empty string: when the canonical URL is
falsy the `"title:"` prefix makes the fallback key non-empty. -/
theorem keyOf_ne_nil (it : Item) : keyOf it ≠ [] := by
  have h : ∀ k : List Char,
      (if k = [] then "title:".data ++ titleKeyCs it.title.data else k) ≠ [] := by
    intro k
    split
    · simp
    · next hk => exact hk
  exact h _

/-- Every key that `dedupeGo` emits was not in the incoming `seen` set. -/
theorem dedupeGo_key_notin (L : List Item) :
    ∀ (seen : List (List Char)) (x : Item), x ∈ dedupeGo seen L → keyOf x ∉ seen := by
  induction L with
  | nil => intro seen x hx; simp [dedupeGo] at hx
  | cons it rest ih =>
      intro seen x hx
      simp only [dedupeGo] at hx
      split at hx
      · exact ih seen x hx
      · next hcond =>
          rcases List.mem_cons.mp hx with rfl | hx'
          · exact fun hmem => hcond (Or.inr hmem)
          · have := ih (keyOf it :: seen) x hx'
            exact fun hmem => this (List.mem_cons_of_mem _ hmem)

/-- The keys of `dedupeGo`'s output are pairwise distinct. -/
theorem dedupeGo_pairwise (L : List Item) :
    ∀ seen : List (List Char),
      (dedupeGo seen L).Pairwise (fun a b => keyOf a ≠ keyOf b) := by
  induction L with
  | nil => intro seen; simp [dedupeGo]
  | cons it rest ih =>
      intro seen
      simp only [dedupeGo]
      split
      · exact ih seen
      · refine List.Pairwise.cons ?_ (ih (keyOf it :: seen))
        intro y hy
        have := dedupeGo_key_notin rest (keyOf it :: seen) y hy
        exact fun he => this (he ▸ List.mem_cons_self _ _)

/-- A list whose keys are pairwise distinct and avoid `seen` passes
`dedupeGo` unchanged. -/
theorem dedupeGo_fixed (M : List Item) :
    ∀ seen : List (List Char),
      M.Pairwise (fun a b => keyOf a ≠ keyOf b) →
      (∀ x ∈ M, keyOf x ∉ seen) → dedupeGo seen M = M := by
  induction M with
  | nil => intro seen _ _; rfl
  | cons x rest ih =>
      intro seen hpw hnot
      simp only [dedupeGo]
      rw [if_neg, ih (keyOf x :: seen) (List.Pairwise.of_cons hpw)]
      · intro y hy
        rcases List.rel_of_pairwise_cons hpw hy with hne
        intro hmem
        rcases List.mem_cons.mp hmem with he | hs
        · exact hne he.symm
        · exact hnot y (List.mem_cons_of_mem _ hy) hs
      · rintro (hnil | hmem)
        · exact keyOf_ne_nil x hnil
        · exact hnot x (List.mem_cons_self _ _) hmem

/-- Claim C8: `hard_dedupe` is idempotent —
`hard_dedupe (hard_dedupe L) = hard_dedupe L` for every list. -/
theorem claim_C8 (L : List Item) : hard_dedupe (hard_dedupe L) = hard_dedupe L := by
  unfold hard_dedupe
  exact dedupeGo_fixed (dedupeGo [] L) []
    (dedupeGo_pairwise L []) (by intro x _ h; simp at h)

/-- Claim C4 counterexample: an item with neither URL nor title is NOT
dropped — its key is the non-empty string `"title:"`, so the first such
item is retained by `hard_dedupe` (the claim says it is never retained). -/
theorem claim_C4_counterexample : hard_dedupe [emptyKeyA] = [emptyKeyA] := by
  decide

/-- Claim C4 (amended): an item with neither URL nor title yields the
non-empty key `"title:"`; `hard_dedupe` retains the first such item and
drops a subsequent URL-less, title-less item as its duplicate. -/
theorem claim_C4_amended (it it' : Item)
    (h : it.link = "" ∧ it.url = "" ∧ it.title = "")
    (h' : it'.link = "" ∧ it'.url = "" ∧ it'.title = "") :
    keyOf it = "title:".data ∧ hard_dedupe [it] = [it] ∧
      hard_dedupe [it, it'] = [it] := by
  obtain ⟨h1, h2, h3⟩ := h
  obtain ⟨h1', h2', h3'⟩ := h'
  have hk : keyOf it = "title:".data := by
    simp only [keyOf, h1, h2, h3]
    decide
  have hk' : keyOf it' = "title:".data := by
    simp only [keyOf, h1', h2', h3']
    decide
  have hne : ("title:".data : List Char) ≠ [] := by decide
  refine ⟨hk, ?_, ?_⟩ <;> simp [hard_dedupe, dedupeGo, hk, hk', hne]

/-- Claim C4 witness: two concrete URL-less, title-less items — the first
is kept with key `"title:"`, the second is dropped as its duplicate. -/
theorem claim_C4_witness :
    keyOf emptyKeyA = "title:".data ∧ hard_dedupe [emptyKeyA] = [emptyKeyA] ∧
      hard_dedupe [emptyKeyA, emptyKeyB] = [emptyKeyA] :=
  claim_C4_amended emptyKeyA emptyKeyB ⟨rfl, rfl, rfl⟩ ⟨rfl, rfl, rfl⟩

/-- Claim C5 counterexample: `canonicalize_url` (utils.py) does NOT
lowercase the host (nor strip `www.`): on the spec's own example the `X`
stays uppercase while tracking parameters are removed. -/
theorem claim_C5_counterexample :
    canonicalize_url "https://X.com/a?utm_source=foo&x=1" = some "https://X.com/a?x=1" ∧
      (some "https://X.com/a?x=1" : Option String) ≠ some "https://x.com/a?x=1" := by
  constructor
  · decide
  · decide

/-- Claim C5 (amended): when `urlsplit` succeeds, `canonicalize_url`
(utils.py) reassembles the parsed scheme, netloc and path unchanged (the
host is neither lowercased nor `www.`-stripped), drops the fragment, and
keeps exactly the parameters whose lowercased name does not start `utm_`
and is not `gclid`/`fbclid`/`mc_cid`/`mc_eid`, in their original order (a
sublist); when `urlsplit` raises (unbalanced-bracket netloc) the error
propagates out of `canonicalize_url`, which has no handler.
`_canonicalize_url` (dedupe.py) is the variant that also lowercases the
netloc and removes every occurrence of `www.` from it, filters by its
fixed utm-name set, and catches the parse error, returning the stripped
input unchanged. -/
theorem claim_C5_amended (url : String) :
    (∀ p : SplitResult, urlsplitE url.data = some p →
      canonicalize_url url = some (⟨urlunsplitCs p.scheme p.netloc p.path
        (urlencodeQ ((parseQsl p.query).filter fun kv => ! isTrackingUtils kv.1))
        []⟩ : String)) ∧
    (urlsplitE url.data = none → canonicalize_url url = none) ∧
    ((parseQsl (urlsplitCs url.data).query).filter
        fun kv => ! isTrackingUtils kv.1).Sublist (parseQsl (urlsplitCs url.data).query) ∧
    (∀ kv : List Char × List Char,
      kv ∈ ((parseQsl (urlsplitCs url.data).query).filter
          fun kv => ! isTrackingUtils kv.1) ↔
        kv ∈ parseQsl (urlsplitCs url.data).query ∧ isTrackingUtils kv.1 = false) ∧
    (∀ p : ParseResult, urlparseE (stripCs url.data) = some p →
      (canonicalize_url_dedupe url).data =
        urlunparseCs p.scheme (removeWWW (lowerCs p.netloc)) p.path p.params
          (urlencodeQ ((parseQsl p.query).filter fun kv => ! isTrackingDedupe kv.1)) []) ∧
    (urlparseE (stripCs url.data) = none →
      (canonicalize_url_dedupe url).data = stripCs url.data) := by
  refine ⟨?_, ?_, List.filter_sublist _, ?_, ?_, ?_⟩
  · intro p hp
    by_cases hnil : url.data = []
    · obtain ⟨d⟩ := url
      simp only [String.data] at hnil
      subst hnil
      have he : urlsplitE ([] : List Char) = some (urlsplitCs []) := by decide
      rw [he] at hp
      rw [← Option.some_inj.mp hp]
      decide
    · show (canonicalizeUrlCs url.data).map (fun s => (⟨s⟩ : String)) = _
      unfold canonicalizeUrlCs
      rw [if_neg hnil]
      simp only [hp]
      rfl
  · intro h
    by_cases hnil : url.data = []
    · rw [hnil] at h
      exact absurd h (by decide)
    · show (canonicalizeUrlCs url.data).map (fun s => (⟨s⟩ : String)) = _
      unfold canonicalizeUrlCs
      rw [if_neg hnil]
      simp only [h]
      rfl
  · intro kv
    rw [List.mem_filter]
    simp
  · intro p hp
    by_cases hnil : url.data = []
    · obtain ⟨d⟩ := url
      simp only [String.data] at hnil
      subst hnil
      have he : urlparseE (stripCs ([] : List Char)) =
          some ({} : ParseResult) := by decide
      rw [he] at hp
      rw [← Option.some_inj.mp hp]
      decide
    · show canonicalizeUrlDedupeCs url.data = _
      unfold canonicalizeUrlDedupeCs
      rw [if_neg hnil]
      simp only [hp]
  · intro h
    by_cases hnil : url.data = []
    · rw [hnil] at h
      exact absurd h (by decide)
    · show canonicalizeUrlDedupeCs url.data = _
      unfold canonicalizeUrlDedupeCs
      rw [if_neg hnil]
      simp only [h]

/-- Claim C5 witness: the success path at the spec's example URL, and the
`ValueError` path at an unbalanced-bracket URL — `canonicalize_url`
propagates it (no value), `_canonicalize_url` returns the (stripped)
input unchanged. -/
theorem claim_C5_witness :
    canonicalize_url "https://X.com/a?utm_source=foo&x=1" = some "https://X.com/a?x=1" ∧
    canonicalize_url "http://[ABC" = none ∧
    (canonicalize_url_dedupe "http://[ABC").data = "http://[ABC".data := by
  refine ⟨?_, ?_, ?_⟩
  · exact ((claim_C5_amended "https://X.com/a?utm_source=foo&x=1").1
      (urlsplitCs "https://X.com/a?utm_source=foo&x=1".data) (by decide)).trans (by decide)
  · exact (claim_C5_amended "http://[ABC").2.1 (by decide)
  · exact ((claim_C5_amended "http://[ABC").2.2.2.2.2 (by decide)).trans (by decide)

theorem repKeyLe_refl (a : Int × List Char) : repKeyLe a a := Or.inr ⟨rfl, le_refl _⟩

theorem repKeyLt_le (a b : Int × List Char) (h : repKeyLt a b = true) : repKeyLe a b := by
  unfold repKeyLt at h
  simp only [Bool.or_eq_true, Bool.and_eq_true, decide_eq_true_eq] at h
  rcases h with h | ⟨h1, h2⟩
  · exact Or.inl h
  · exact Or.inr ⟨h1, le_of_lt h2⟩

theorem repKeyLt_ge (a b : Int × List Char) (h : repKeyLt a b = false) : repKeyLe b a := by
  unfold repKeyLt at h
  simp only [Bool.or_eq_false_iff, Bool.and_eq_false_iff, decide_eq_false_iff_not] at h
  obtain ⟨h1, h2⟩ := h
  rcases lt_or_eq_of_le (le_of_not_lt h1) with hlt | heq
  · exact Or.inl hlt
  · refine Or.inr ⟨heq, ?_⟩
    rcases h2 with h2 | h2
    · exact absurd heq.symm (by simpa using h2)
    · exact le_of_not_lt h2

theorem repKeyLe_trans (a b c : Int × List Char) :
    repKeyLe a b → repKeyLe b c → repKeyLe a c := by
  rintro (h | ⟨e1, h2⟩) (g | ⟨f1, g2⟩)
  · exact Or.inl (lt_trans h g)
  · exact Or.inl (f1 ▸ h)
  · exact Or.inl (e1 ▸ g)
  · exact Or.inr ⟨e1.trans f1, le_trans h2 g2⟩

theorem pickRep_mem (x : Item) (xs : List Item) : pickRep x xs ∈ x :: xs := by
  induction xs generalizing x with
  | nil => simp [pickRep]
  | cons y ys ih =>
      simp only [pickRep, List.foldl_cons]
      have h := ih (if repKeyLt (repKey x) (repKey y) then y else x)
      simp only [pickRep] at h
      rcases List.mem_cons.mp h with he | hs
      · rw [he]
        split
        · exact List.mem_cons_of_mem _ (List.mem_cons_self _ _)
        · exact List.mem_cons_self _ _
      · exact List.mem_cons_of_mem _ (List.mem_cons_of_mem _ hs)

theorem pickRep_ge (x : Item) (xs : List Item) :
    ∀ m ∈ x :: xs, repKeyLe (repKey m) (repKey (pickRep x xs)) := by
  induction xs generalizing x with
  | nil =>
      intro m hm
      rcases List.mem_cons.mp hm with he | hs
      · rw [he]; exact repKeyLe_refl _
      · simp at hs
  | cons y ys ih =>
      intro m hm
      simp only [pickRep, List.foldl_cons]
      by_cases hxy : repKeyLt (repKey x) (repKey y) = true
      · rw [if_pos hxy]
        have hrep := ih y y (List.mem_cons_self _ _)
        simp only [pickRep] at hrep
        rcases List.mem_cons.mp hm with he | hs
        · rw [he]
          exact repKeyLe_trans _ _ _ (repKeyLt_le _ _ hxy) hrep
        · rcases List.mem_cons.mp hs with he' | hs'
          · rw [he']; exact hrep
          · have := ih y m (List.mem_cons_of_mem _ hs')
            simpa only [pickRep] using this
      · rw [if_neg hxy]
        have hflip := repKeyLt_ge _ _ (Bool.eq_false_iff.mpr hxy)
        have hrep := ih x x (List.mem_cons_self _ _)
        simp only [pickRep] at hrep
        rcases List.mem_cons.mp hm with he | hs
        · rw [he]; exact hrep
        · rcases List.mem_cons.mp hs with he' | hs'
          · rw [he']
            exact repKeyLe_trans _ _ _ hflip hrep
          · have := ih x m (List.mem_cons_of_mem _ hs')
            simpa only [pickRep] using this

/-- Claim C2: for every non-empty cluster produced by `cluster_and_select`,
the chosen representative is a member whose `(score, published_at)` key —
score read as an integer defaulting to 0, `published_at` compared as a
string with a missing timestamp as `""` — is greatest among the members,
and the representative's stored score is incremented by the consensus
boost, which is 0 for ≤1 distinct source, 5 for 2, 10 for 3 and 15 for
≥4. -/
theorem claim_C2 (θ : ℚ) (items : List Item) (cl : List Member)
    (_hmem : cl ∈ clustersOf θ items) (x : Item) (xs : List Item)
    (hmap : cl.map Prod.fst = x :: xs) :
    pickRep x xs ∈ x :: xs ∧
    (∀ m ∈ x :: xs, repKeyLe (repKey m) (repKey (pickRep x xs))) ∧
    (processCluster cl).score =
      some ((pickRep x xs).score.getD 0 +
        consensus_boost (clusterSrcs (x :: xs)).length) ∧
    (∀ n : Nat, n ≤ 1 → consensus_boost n = 0) ∧ consensus_boost 2 = 5 ∧
    consensus_boost 3 = 10 ∧ (∀ n : Nat, 4 ≤ n → consensus_boost n = 15) := by
  refine ⟨pickRep_mem x xs, pickRep_ge x xs, ?_, ?_, by decide, by decide, ?_⟩
  · simp [processCluster, hmap]
  · intro n hn
    unfold consensus_boost
    rw [if_pos hn]
  · intro n hn
    unfold consensus_boost
    rw [if_neg (by omega), if_neg (by omega), if_neg (by omega)]

/-- Claim C2 witness: the spec's representative-selection example —
A(score 10) and B(score 50) from two sources; B is picked and its score
becomes 50 + 5. -/
theorem claim_C2_witness :
    pickRep repExA [repExB] ∈ [repExA, repExB] ∧
    (processCluster repExCluster).score =
      some ((pickRep repExA [repExB]).score.getD 0 +
        consensus_boost (clusterSrcs [repExA, repExB]).length) ∧
    repKeyLe (repKey repExA) (repKey (pickRep repExA [repExB])) ∧
    consensus_boost 2 = 5 := by
  have h := claim_C2 simThresholdDefault [repExA, repExB] repExCluster (by decide)
    repExA [repExB] (by decide)
  exact ⟨h.1, h.2.2.1, h.2.1 repExA (List.mem_cons_self _ _), h.2.2.2.2.1⟩

/-- Claim C3: `cluster_and_select` builds clusters by a left fold over the
items in input order; each step compares the item's token set by Jaccard
similarity against only the first member's token set of each existing
cluster in creation order, joins the first cluster meeting the threshold
and otherwise appends a new singleton cluster (so clusters are never
merged or reassigned); and the similarity is 0 whenever either token set
is empty. -/
theorem claim_C3 (θ : ℚ) (items : List Item) :
    clustersOf θ items =
      (items.map fun it => (it, tokenize it.title)).foldl
        (fun cs x => placeStep θ x cs) [] ∧
    (∀ a b : Finset (List Char), a = ∅ ∨ b = ∅ → jaccard a b = 0) ∧
    (∀ (cs : List (List Member)) (x : Member),
      (∃ i, ∃ hi : i < cs.length,
        θ ≤ jaccard x.2 (headTok (cs.get ⟨i, hi⟩)) ∧
        (∀ j, ∀ hj : j < i, jaccard x.2 (headTok (cs.get ⟨j, lt_trans hj hi⟩)) < θ) ∧
        placeStep θ x cs = cs.set i (cs.get ⟨i, hi⟩ ++ [x])) ∨
      ((∀ j, ∀ hj : j < cs.length, jaccard x.2 (headTok (cs.get ⟨j, hj⟩)) < θ) ∧
        placeStep θ x cs = cs ++ [[x]])) := by
  refine ⟨rfl, ?_, ?_⟩
  · intro a b h
    unfold jaccard
    rw [if_pos h]
  · intro cs x
    induction cs with
    | nil =>
        right
        exact ⟨fun j hj => absurd hj (by simp), rfl⟩
    | cons cl rest ih =>
        by_cases hsim : θ ≤ jaccard x.2 (headTok cl)
        · left
          refine ⟨0, by simp, by simpa using hsim, ?_, ?_⟩
          · intro j hj
            exact absurd hj (Nat.not_lt_zero j)
          · simp [placeStep, hsim]
        · rcases ih with ⟨i, hi, hsat, hbefore, heq⟩ | ⟨hall, heq⟩
          · left
            refine ⟨i + 1, by simpa using Nat.succ_lt_succ hi, by simpa using hsat,
              ?_, ?_⟩
            · intro j hj
              cases j with
              | zero => simpa using lt_of_not_le hsim
              | succ j' =>
                  have hj' : j' < i := by omega
                  simpa using hbefore j' hj'
            · simp [placeStep, hsim, heq]
          · right
            refine ⟨?_, ?_⟩
            · intro j hj
              cases j with
              | zero => simpa using lt_of_not_le hsim
              | succ j' =>
                  have hj' : j' < rest.length := by simpa using hj
                  simpa using hall j' hj'
            · simp [placeStep, hsim, heq]

/-- Claim C3 witness: both conjuncts at concrete inputs — the empty-token
similarity hypothesis discharged at the token set of a concrete title,
and the fold characterization at the empty item list. -/
theorem claim_C3_witness :
    jaccard (tokenize emptyTokA.title) ∅ = 0 ∧
    clustersOf simThresholdDefault [] =
      (([] : List Item).map fun it => (it, tokenize it.title)).foldl
        (fun cs x => placeStep simThresholdDefault x cs) [] := by
  have h := claim_C3 simThresholdDefault []
  exact ⟨h.2.1 _ ∅ (Or.inr rfl), h.1⟩

theorem jaccard_self (a : Finset (List Char)) (ha : a ≠ ∅) : jaccard a a = 1 := by
  have hc : a.card ≠ 0 := by simpa [Finset.card_eq_zero] using ha
  unfold jaccard
  rw [if_neg (by simp [ha]), Finset.inter_self, Finset.union_self, if_pos hc,
    Rat.mkRat_eq_div]
  push_cast
  exact div_self (by exact_mod_cast hc)

theorem simThreshold_le_one : simThresholdDefault ≤ 1 := by
  unfold simThresholdDefault
  rw [Rat.mkRat_eq_div]
  norm_num

/-- Claim C7 counterexample: two items whose titles have identical
normalized forms (`"go on"` → token set ∅, since both words are dropped)
from two distinct sources do NOT merge: both-empty token sets compare at
similarity 0, so `cluster_and_select` emits two representatives, not one. -/
theorem claim_C7_counterexample :
    (cluster_and_select [emptyTokA, emptyTokB] simThresholdDefault).length = 2 := by
  decide

/-- Claim C7 (amended): two items whose titles have identical normalized
forms with a NON-EMPTY token set, carrying two distinct source names,
cluster into a single representative with `consensus_boost = 5` and
`cluster_size = 2`. -/
theorem claim_C7_amended (i1 i2 : Item)
    (htok : tokenize i1.title = tokenize i2.title)
    (hne : tokenize i1.title ≠ ∅)
    (hsrc : srcOf i1 ≠ srcOf i2) :
    (cluster_and_select [i1, i2] simThresholdDefault).map Item.consensus_boost =
      [some 5] ∧
    (cluster_and_select [i1, i2] simThresholdDefault).map Item.cluster_size =
      [some 2] := by
  have hj : simThresholdDefault ≤
      jaccard (tokenize i2.title) (headTok [(i1, tokenize i1.title)]) := by
    simp only [headTok]
    rw [← htok, jaccard_self _ hne]
    exact simThreshold_le_one
  have hclusters : clustersOf simThresholdDefault [i1, i2] =
      [[(i1, tokenize i1.title), (i2, tokenize i2.title)]] := by
    unfold clustersOf
    simp only [List.map_cons, List.map_nil, List.foldl_cons, List.foldl_nil]
    simp [placeStep, hj]
  have hd : (srcOf i1).data ≠ (srcOf i2).data := by
    intro hdd
    apply hsrc
    cases hs1 : srcOf i1 with
    | mk d1 =>
        cases hs2 : srcOf i2 with
        | mk d2 =>
            rw [hs1, hs2] at hdd
            simp only [String.data] at hdd
            rw [hdd]
  have hsrcs : (clusterSrcs [i1, i2]).length = 2 := by
    unfold clusterSrcs
    simp only [List.map_cons, List.map_nil]
    rw [List.dedup_cons_of_not_mem (by simp [hd])]
    simp
  unfold cluster_and_select
  rw [if_neg (by simp), hclusters]
  constructor <;> simp [processCluster, hsrcs, consensus_boost]

/-- Claim C7 witness: concrete items — `"Acme Stablecoin"` from source A
and `"acme stablecoin!"` from source B normalize to the same non-empty
token set and merge into one representative with boost 5 and size 2. -/
theorem claim_C7_witness :
    (cluster_and_select [stableA, stableB] simThresholdDefault).map
      Item.consensus_boost = [some 5] ∧
    (cluster_and_select [stableA, stableB] simThresholdDefault).map
      Item.cluster_size = [some 2] :=
  claim_C7_amended stableA stableB (by decide) (by decide) (by decide)
